import Mathlib

/-!
Verification development for the `wpull.pipeline.pipeline` module.

We shallow-embed the data model and operations of the module:

* `ItemQueue` — the work queue backed by `asyncio.PriorityQueue`, with an
  in-flight counter (`unfinished_items`) and a monotone entry counter
  (`entry_count`).  The Python priority queue stores tuples
  `(priority, entry_count, item)` and always dequeues the lexicographically
  smallest tuple; since entry counts are unique the payload is never compared.
  We model the queue contents as a list in insertion order and `get` as
  extraction of the entry minimal in `(priority, seq)` lexicographic order.
* `Producer` — the loop pulling items from an item source and enqueueing
  truthy ones.
* `Worker` — the loop dequeueing items, running the task chain and calling
  `item_done` on success.
* `Pipeline` / `PipelineSeries` — lifecycle state, concurrency control and
  shutdown processing.

Blocking `await`s are modelled as partiality (`Option`): an operation that
would block (or trip an `assert`) yields `none`, so theorems that quantify
over completed executions quantify over exactly the schedules the code can
perform.  Python truthiness of work items is modelled by `PyVal`, a payload
paired with its boolean value.
-/

/-- Python's `POISON_PILL` sentinel versus a normal work item. -/
inductive QItem (α : Type) where
  | poison
  | item (a : α)
deriving DecidableEq, Repr

/-- Whether a queue payload is the poison pill. -/
def QItem.isPoison {α : Type} : QItem α → Bool
  | QItem.poison => true
  | QItem.item _ => false

/-- `ITEM_PRIORITY = 1`: priority of normal work items. -/
def ITEM_PRIORITY : Nat := 1

/-- `POISON_PRIORITY = 0`: priority of poison pills (stop signals). -/
def POISON_PRIORITY : Nat := 0

/-- One entry of the priority queue: the tuple
`(priority, entry_count, item)` pushed by `put_nowait`. -/
structure IQEntry (α : Type) where
  priority : Nat
  seq : Nat
  load : QItem α
deriving DecidableEq, Repr

/-- State of `ItemQueue`: the pending entries (in insertion order), the
in-flight counter `_unfinished_items`, and the `_entry_count` counter. -/
structure ItemQueue (α : Type) where
  queue : List (IQEntry α)
  unfinished_items : Int
  entry_count : Nat
deriving DecidableEq, Repr

/-- `ItemQueue.__init__`: empty queue, zero counters. -/
def ItemQueue.init {α : Type} : ItemQueue α :=
  { queue := [], unfinished_items := 0, entry_count := 0 }

/-- The body of `put_item` once the `while qsize > 0: wait` loop has exited:
increment `_unfinished_items`, push `(ITEM_PRIORITY, entry_count, item)`,
increment `_entry_count`.  The wait loop itself is modelled as the
enabledness condition `queue = []` at the call sites. -/
def ItemQueue.put_item_now {α : Type} (q : ItemQueue α) (a : α) : ItemQueue α :=
  { q with
    unfinished_items := q.unfinished_items + 1
    queue := q.queue ++ [⟨ITEM_PRIORITY, q.entry_count, QItem.item a⟩]
    entry_count := q.entry_count + 1 }

/-- `put_poison_nowait`: push `(POISON_PRIORITY, entry_count, POISON_PILL)`
and increment `_entry_count`. -/
def ItemQueue.put_poison_nowait {α : Type} (q : ItemQueue α) : ItemQueue α :=
  { q with
    queue := q.queue ++ [⟨POISON_PRIORITY, q.entry_count, QItem.poison⟩]
    entry_count := q.entry_count + 1 }

/-- Strict lexicographic order on queue entries, as Python compares the
tuples `(priority, entry_count, ...)` in the heap. -/
def entryLt {α : Type} (a b : IQEntry α) : Bool :=
  a.priority < b.priority || (a.priority == b.priority && a.seq < b.seq)

/-- The minimum entry of a list under `entryLt` (what the heap pop of
`asyncio.PriorityQueue` returns). -/
def findMin {α : Type} : List (IQEntry α) → Option (IQEntry α)
  | [] => none
  | e :: rest =>
    some (match findMin rest with
      | some m => if entryLt m e then m else e
      | none => e)

/-- `ItemQueue.get`: awaits the priority queue, returning the smallest entry
and the remaining queue.  `none` models blocking on an empty queue. -/
def ItemQueue.get {α : Type} [DecidableEq α] (q : ItemQueue α) :
    Option (IQEntry α × ItemQueue α) :=
  match findMin q.queue with
  | none => none
  | some m => some (m, { q with queue := q.queue.erase m })

/-- `item_done`: decrement `_unfinished_items`; the
`assert self._unfinished_items >= 0` is modelled by returning `none` when
the decremented counter is negative. -/
def ItemQueue.item_done {α : Type} (q : ItemQueue α) : Option (ItemQueue α) :=
  let q' := { q with unfinished_items := q.unfinished_items - 1 }
  if 0 ≤ q'.unfinished_items then some q' else none

/-- The operations that touch the queue state. -/
inductive QOp (α : Type) where
  | putItem (a : α)
  | putPoison
  | getOp
  | itemDone
deriving DecidableEq, Repr

/-- Execute one queue operation.  `putItem` is only enabled on an empty
queue (the `while qsize > 0: wait` loop of `put_item`); `getOp` is only
enabled on a nonempty queue; `itemDone` is only enabled when the counter
stays nonnegative (the `assert`). -/
def applyOp {α : Type} [DecidableEq α] (q : ItemQueue α) : QOp α → Option (ItemQueue α)
  | QOp.putItem a => if q.queue = [] then some (q.put_item_now a) else none
  | QOp.putPoison => some q.put_poison_nowait
  | QOp.getOp => (q.get).map Prod.snd
  | QOp.itemDone => q.item_done

/-- Run a list of queue operations from a given state; `none` when some
operation would block or fail its assertion. -/
def runFrom {α : Type} [DecidableEq α] (q : ItemQueue α) : List (QOp α) → Option (ItemQueue α)
  | [] => some q
  | op :: rest =>
    match applyOp q op with
    | some q' => runFrom q' rest
    | none => none

/-- Run a list of queue operations from the initial queue. -/
def run {α : Type} [DecidableEq α] (ops : List (QOp α)) : Option (ItemQueue α) :=
  runFrom ItemQueue.init ops

/-- Number of normal (non-poison) entries pending in a list of entries. -/
def countNormal {α : Type} : List (IQEntry α) → Nat
  | [] => 0
  | e :: rest => (if e.load.isPoison then 0 else 1) + countNormal rest

/-- Number of poison entries pending in a list of entries. -/
def countPoison {α : Type} : List (IQEntry α) → Nat
  | [] => 0
  | e :: rest => (if e.load.isPoison then 1 else 0) + countPoison rest

/-- Number of `putItem` operations in an operation list. -/
def countPutOps {α : Type} : List (QOp α) → Int
  | [] => 0
  | QOp.putItem _ :: rest => 1 + countPutOps rest
  | _ :: rest => countPutOps rest

/-- Number of `itemDone` operations in an operation list. -/
def countDoneOps {α : Type} : List (QOp α) → Int
  | [] => 0
  | QOp.itemDone :: rest => 1 + countDoneOps rest
  | _ :: rest => countDoneOps rest

/-- Well-formedness of a single entry: poison pills carry priority 0 and
normal items carry priority 1, as enqueued by `put_item` and
`put_poison_nowait`. -/
def entryWF {α : Type} (e : IQEntry α) : Prop :=
  (e.priority = POISON_PRIORITY ∧ e.load = QItem.poison) ∨
    (e.priority = ITEM_PRIORITY ∧ e.load ≠ QItem.poison)

/-- Reachable-state invariant of the work queue. -/
structure QInv {α : Type} (q : ItemQueue α) : Prop where
  sorted : q.queue.Pairwise (fun a b => a.seq < b.seq)
  bounded : ∀ e ∈ q.queue, e.seq < q.entry_count
  wf : ∀ e ∈ q.queue, entryWF e
  normalBound : countNormal q.queue ≤ 1
  nonneg : 0 ≤ q.unfinished_items

/-- A Python value together with its truthiness (`bool(v)`), so that falsy
non-`None` items (`0`, `""`, falsy objects) are representable. -/
structure PyVal (α : Type) where
  val : α
  truthy : Bool
deriving DecidableEq, Repr

/-- Truthiness of an `Optional[WorkItemT]`: `None` is falsy, otherwise the
value decides. -/
def isTruthy {α : Type} : Option (PyVal α) → Bool
  | none => false
  | some v => v.truthy

/-- State of `Producer`: the item source, modelled as the script of values
successive `get_item()` calls return (an exhausted script keeps returning
`None`), and the `_running` flag. -/
structure Producer (α : Type) where
  item_source : List (Option (PyVal α))
  running : Bool
deriving DecidableEq, Repr

/-- One `get_item()` call on the scripted source. -/
def takeSource {α : Type} :
    List (Option (PyVal α)) → Option (PyVal α) × List (Option (PyVal α))
  | [] => (none, [])
  | v :: rest => (v, rest)

/-- `Producer.stop`: clear `_running` when set. -/
def Producer.stop {α : Type} (p : Producer α) : Producer α :=
  if p.running then { p with running := false } else p

/-- `Producer.process_one`: get an item from the source; if it is truthy,
`put_item` it and return it, otherwise return `None`.  The completed
`put_item` (after its wait loop) is `put_item_now`. -/
def Producer.process_one {α : Type} (p : Producer α) (q : ItemQueue (PyVal α)) :
    Producer α × ItemQueue (PyVal α) × Option (PyVal α) :=
  let s := takeSource p.item_source
  let p' := { p with item_source := s.2 }
  match s.1 with
  | some v => if v.truthy then (p', q.put_item_now v, some v) else (p', q, none)
  | none => (p', q, none)

/-- What one iteration of the `Producer.process` loop body did. -/
inductive LoopEvent where
  | enqueued
  | stoppedExhausted
  | waitedForWorker
deriving DecidableEq, Repr

/-- One iteration of the `while self._running` body of `Producer.process`:
call `process_one`; if no item and no unfinished work, `stop()` and break;
if no item but work is in flight, `wait_for_worker()` and retry. -/
def Producer.processStep {α : Type} (p : Producer α) (q : ItemQueue (PyVal α)) :
    Producer α × ItemQueue (PyVal α) × LoopEvent :=
  let r := p.process_one q
  match r with
  | (p', q', item) =>
    if item.isNone && decide (q'.unfinished_items = 0) then
      (p'.stop, q', LoopEvent.stoppedExhausted)
    else if item.isNone then
      (p', q', LoopEvent.waitedForWorker)
    else
      (p', q', LoopEvent.enqueued)

/-- The `while self._running` loop of `Producer.process`, fuelled; `none`
when the fuel runs out before the loop exits. -/
def Producer.processLoop {α : Type} :
    Nat → Producer α → ItemQueue (PyVal α) → Option (Producer α × ItemQueue (PyVal α))
  | 0, _, _ => none
  | Nat.succ fuel, p, q =>
    if p.running then
      match p.processStep q with
      | (p', q', LoopEvent.stoppedExhausted) => some (p', q')
      | (p', q', _) => Producer.processLoop fuel p' q'
    else some (p, q)

/-- `Producer.process`: set `_running` and enter the loop. -/
def Producer.process {α : Type} (fuel : Nat) (p : Producer α)
    (q : ItemQueue (PyVal α)) : Option (Producer α × ItemQueue (PyVal α)) :=
  Producer.processLoop fuel { p with running := true } q

/-- State of `Worker`: the task chain; each task maps an item to whether
`task.process(item)` completes without raising. -/
structure Worker (α : Type) where
  tasks : List (PyVal α → Bool)

/-- Observable outcome of `Worker.process_one`. -/
inductive WorkerOutcome (α : Type) where
  | poison
  | done (v : PyVal α)
  | error (v : PyVal α)
deriving DecidableEq, Repr

/-- Run the `for task in self._tasks` chain: `true` iff every task
completes; a raising task aborts the rest of the chain. -/
def runTasks {α : Type} : List (PyVal α → Bool) → PyVal α → Bool
  | [], _ => true
  | t :: rest, v => if t v then runTasks rest v else false

/-- `Worker.process_one`: `get()` an entry (`none` models blocking on an
empty queue); return the poison pill immediately; otherwise run the task
chain and, only if every task completed, call `item_done()`.  A raising
task propagates: `item_done` is skipped and the outcome is `error`. -/
def Worker.process_one {α : Type} [DecidableEq α] (w : Worker α)
    (q : ItemQueue (PyVal α)) : Option (ItemQueue (PyVal α) × WorkerOutcome α) :=
  match q.get with
  | none => none
  | some (e, q1) =>
    match e.load with
    | QItem.poison => some (q1, WorkerOutcome.poison)
    | QItem.item v =>
      if runTasks w.tasks v then
        match q1.item_done with
        | some q2 => some (q2, WorkerOutcome.done v)
        | none => none
      else some (q1, WorkerOutcome.error v)

/-- `PipelineState` enum. -/
inductive PipelineState where
  | stopped
  | running
  | stopping
deriving DecidableEq, Repr

/-- The attributes of `Pipeline` that its lifecycle and concurrency
operations read and write.  `worker_tasks` is the size of the
`_worker_tasks` set; `unpaused_event` the state of `_unpaused_event`. -/
structure Pipeline (α : Type) where
  item_queue : ItemQueue (PyVal α)
  producer : Producer α
  state : PipelineState
  concurrency : Int
  worker_tasks : Nat
  unpaused_event : Bool
deriving DecidableEq, Repr

/-- Iterated `put_poison_nowait`, as done by `for dummy in range(n)`. -/
def ItemQueue.put_poisons {α : Type} (q : ItemQueue α) : Nat → ItemQueue α
  | 0 => q
  | Nat.succ n => ItemQueue.put_poisons q.put_poison_nowait n

/-- `Pipeline._kill_workers`: one poison pill per current worker task. -/
def Pipeline.kill_workers {α : Type} (p : Pipeline α) : Pipeline α :=
  { p with item_queue := p.item_queue.put_poisons p.worker_tasks }

/-- `Pipeline.stop`: when running, move to `stopping`, stop the producer
and poison one pill per active worker; otherwise do nothing. -/
def Pipeline.stop {α : Type} (p : Pipeline α) : Pipeline α :=
  if p.state = PipelineState.running then
    Pipeline.kill_workers
      { p with state := PipelineState.stopping, producer := p.producer.stop }
  else p

/-- An exception object raised by the producer; only whether it is the
`StopIteration` sentinel matters to the wrapper, plus a tag so distinct
exceptions are distinguishable. -/
structure PExc where
  isStopIteration : Bool
  tag : Nat
deriving DecidableEq, Repr

/-- `Pipeline._run_producer_wrapper`, given the outcome of
`self._producer.process()` (`none` = returned normally, `some e` = raised
`e`): on success call `self.stop()`; on an exception call `self.stop()`
unless it is `StopIteration`, then re-raise it — the `raise` is
unconditional, so every caught exception is stored in the producer task. -/
def Pipeline.run_producer_wrapper {α : Type} (p : Pipeline α)
    (outcome : Option PExc) : Pipeline α × Option PExc :=
  match outcome with
  | none => (p.stop, none)
  | some e => (if e.isStopIteration then p else p.stop, some e)

/-- The awaits of `_shutdown_processing`, in program order. -/
inductive ShutdownEvent where
  | waitWorkers
  | waitProducer
deriving DecidableEq, Repr

/-- `Pipeline._shutdown_processing`, given the exception stored in the
producer task (from `_run_producer_wrapper`): assert the state is
`stopping` (`none` otherwise); await the worker tasks when any exist;
clear `_worker_tasks`; await the producer task — re-raising its stored
exception, in which case the final `self._state = stopped` assignment is
never reached.  Returns the final pipeline, the exception propagated to
the caller, and the awaits performed in order. -/
def Pipeline.shutdown_processing {α : Type} (p : Pipeline α)
    (producerExc : Option PExc) :
    Option (Pipeline α × Option PExc × List ShutdownEvent) :=
  if p.state = PipelineState.stopping then
    let events :=
      (if p.worker_tasks ≠ 0 then [ShutdownEvent.waitWorkers] else []) ++
        [ShutdownEvent.waitProducer]
    let p1 := { p with worker_tasks := 0 }
    match producerExc with
    | some e => some (p1, some e, events)
    | none => some ({ p1 with state := PipelineState.stopped }, none, events)
  else none

/-- The `concurrency` setter of `Pipeline`.  Returns the object state as of
return or raise, and the raised error message if any: a negative value is
rejected before any mutation; otherwise the target is stored, and only in
the running state poison pills are enqueued (|change| of them on decrease,
one on increase) and the unpaused event is set or cleared by the new
target's truthiness. -/
def Pipeline.set_concurrency {α : Type} (p : Pipeline α) (new_concurrency : Int) :
    Pipeline α × Option String :=
  if new_concurrency < 0 then (p, some "Concurrency cannot be negative")
  else
    let change := new_concurrency - p.concurrency
    let p1 := { p with concurrency := new_concurrency }
    if p1.state ≠ PipelineState.running then (p1, none)
    else
      let p2 :=
        if change < 0 then
          { p1 with item_queue := p1.item_queue.put_poisons change.natAbs }
        else if 0 < change then
          { p1 with item_queue := p1.item_queue.put_poison_nowait }
        else p1
      if p2.concurrency ≠ 0 then ({ p2 with unpaused_event := true }, none)
      else ({ p2 with unpaused_event := false }, none)

/-- `Pipeline._warn_discarded_items` reports
`self._item_queue.unfinished_items` as the number of discarded items. -/
def Pipeline.warn_discarded_count {α : Type} (p : Pipeline α) : Int :=
  p.item_queue.unfinished_items

/-- State of `PipelineSeries`: the member pipelines, each tagged with
whether it belongs to `_concurrency_pipelines`, and the series target. -/
structure PipelineSeries (α : Type) where
  pipelines : List (Pipeline α × Bool)
  concurrency : Int

/-- The `for pipeline in self._pipelines` loop of the series setter:
forward the new value to each flagged pipeline; a raise from a member's
setter aborts the rest of the loop and propagates. -/
def setMemberPipelines {α : Type} (n : Int) :
    List (Pipeline α × Bool) → List (Pipeline α × Bool) × Option String
  | [] => ([], none)
  | (p, flag) :: rest =>
    if flag then
      match p.set_concurrency n with
      | (p', none) =>
        let r := setMemberPipelines n rest
        ((p', flag) :: r.1, r.2)
      | (p', some msg) => ((p', flag) :: rest, some msg)
    else
      let r := setMemberPipelines n rest
      ((p, flag) :: r.1, r.2)

/-- The `concurrency` setter of `PipelineSeries`: store the new value
(without validation), then forward it to the flagged pipelines.  Returns
the series state as of return or raise and the raised error if any. -/
def PipelineSeries.set_concurrency {α : Type} (s : PipelineSeries α) (n : Int) :
    PipelineSeries α × Option String :=
  let s1 : PipelineSeries α := { s with concurrency := n }
  let r := setMemberPipelines n s1.pipelines
  ({ s1 with pipelines := r.1 }, r.2)

/-! ### Lemmas about the heap order -/

theorem entryLt_iff {α : Type} (a b : IQEntry α) :
    entryLt a b = true ↔
      (a.priority < b.priority ∨ (a.priority = b.priority ∧ a.seq < b.seq)) := by
  simp [entryLt]

theorem entryLt_irrefl {α : Type} (a : IQEntry α) : entryLt a a = false := by
  simp [entryLt]

theorem entryLt_asymm {α : Type} {a b : IQEntry α} (h : entryLt a b = true) :
    entryLt b a = false := by
  rw [Bool.eq_false_iff]
  intro hba
  rw [entryLt_iff] at h hba
  omega

theorem entryLt_neg_trans {α : Type} {a b c : IQEntry α}
    (hab : entryLt a b = false) (hbc : entryLt b c = false) :
    entryLt a c = false := by
  rw [Bool.eq_false_iff] at hab hbc ⊢
  intro hac
  rw [entryLt_iff] at hac
  rw [Ne, entryLt_iff] at hab hbc
  omega

theorem entryLt_flip {α : Type} {a b : IQEntry α} (h : entryLt a b = false)
    (hseq : a.seq ≠ b.seq) : entryLt b a = true := by
  rw [Bool.eq_false_iff, Ne, entryLt_iff] at h
  rw [entryLt_iff]
  omega

theorem findMin_mem {α : Type} {l : List (IQEntry α)} {m : IQEntry α}
    (h : findMin l = some m) : m ∈ l := by
  induction l generalizing m with
  | nil => simp [findMin] at h
  | cons e rest ih =>
    simp only [findMin, Option.some.injEq] at h
    cases hrest : findMin rest with
    | none => rw [hrest] at h; simp at h; simp [h]
    | some m2 =>
      rw [hrest] at h
      by_cases hlt : entryLt m2 e = true
      · simp [hlt] at h
        subst h
        exact List.mem_cons_of_mem _ (ih hrest)
      · simp [hlt] at h
        simp [h]

theorem findMin_none_iff {α : Type} {l : List (IQEntry α)} :
    findMin l = none ↔ l = [] := by
  cases l with
  | nil => simp [findMin]
  | cons e rest => simp [findMin]

theorem findMin_least {α : Type} {l : List (IQEntry α)} {m : IQEntry α}
    (h : findMin l = some m) : ∀ e ∈ l, entryLt e m = false := by
  induction l generalizing m with
  | nil => simp [findMin] at h
  | cons e rest ih =>
    simp only [findMin, Option.some.injEq] at h
    intro x hx
    cases hrest : findMin rest with
    | none =>
      rw [hrest] at h
      simp at h
      subst h
      have hnil : rest = [] := findMin_none_iff.mp hrest
      subst hnil
      cases hx with
      | head => exact entryLt_irrefl _
      | tail _ hmem => cases hmem
    | some m2 =>
      rw [hrest] at h
      by_cases hlt : entryLt m2 e = true
      · simp [hlt] at h
        subst h
        cases hx with
        | head => exact entryLt_asymm hlt
        | tail _ hmem => exact ih hrest x hmem
      · simp [hlt] at h
        subst h
        cases hx with
        | head => exact entryLt_irrefl _
        | tail _ hmem =>
          exact entryLt_neg_trans (ih hrest x hmem)
            (Bool.not_eq_true _ ▸ hlt)

/-! ### Counting lemmas -/

theorem countNormal_append {α : Type} (l1 l2 : List (IQEntry α)) :
    countNormal (l1 ++ l2) = countNormal l1 + countNormal l2 := by
  induction l1 with
  | nil => simp [countNormal]
  | cons e rest ih => simp [countNormal, ih]; omega

theorem countPoison_append {α : Type} (l1 l2 : List (IQEntry α)) :
    countPoison (l1 ++ l2) = countPoison l1 + countPoison l2 := by
  induction l1 with
  | nil => simp [countPoison]
  | cons e rest ih => simp [countPoison, ih]; omega

theorem countNormal_sublist {α : Type} {l1 l2 : List (IQEntry α)}
    (h : l1.Sublist l2) : countNormal l1 ≤ countNormal l2 := by
  induction h with
  | slnil => exact Nat.le_refl _
  | cons a _ ih =>
    cases hp : a.load.isPoison <;> simp [countNormal, hp] <;> omega
  | cons₂ a _ ih =>
    cases hp : a.load.isPoison <;> simp [countNormal, hp] <;> omega

/-! ### Invariant preservation -/

theorem qinv_init {α : Type} : QInv (ItemQueue.init (α := α)) := by
  constructor <;> simp [ItemQueue.init, countNormal]

theorem queue_nodup {α : Type} {q : ItemQueue α} (h : QInv q) :
    q.queue.Nodup := by
  refine h.sorted.imp ?_
  intro a b hab heq
  subst heq
  exact lt_irrefl _ hab

theorem qinv_put_item_now {α : Type} {q : ItemQueue α} (h : QInv q)
    (he : q.queue = []) (a : α) : QInv (q.put_item_now a) := by
  constructor
  · simp [ItemQueue.put_item_now, he]
  · simp [ItemQueue.put_item_now, he]
  · simp [ItemQueue.put_item_now, he, entryWF, ITEM_PRIORITY]
  · simp [ItemQueue.put_item_now, he, countNormal, QItem.isPoison]
  · have := h.nonneg
    simp [ItemQueue.put_item_now]
    omega

theorem qinv_put_poison {α : Type} {q : ItemQueue α} (h : QInv q) :
    QInv q.put_poison_nowait := by
  constructor
  · refine List.pairwise_append.mpr ⟨h.sorted, by simp, ?_⟩
    intro x hx b hb
    simp at hb
    subst hb
    exact h.bounded x hx
  · intro e he
    rcases List.mem_append.mp he with hl | hr
    · exact Nat.lt_succ_of_lt (h.bounded e hl)
    · simp at hr
      subst hr
      exact Nat.lt_succ_self _
  · intro e he
    rcases List.mem_append.mp he with hl | hr
    · exact h.wf e hl
    · simp at hr
      subst hr
      exact Or.inl ⟨rfl, rfl⟩
  · have := h.normalBound
    simp [ItemQueue.put_poison_nowait, countNormal_append, countNormal,
      QItem.isPoison]
    omega
  · exact h.nonneg

theorem qinv_get {α : Type} [DecidableEq α] {q q' : ItemQueue α}
    {e : IQEntry α} (h : QInv q) (hg : q.get = some (e, q')) : QInv q' := by
  unfold ItemQueue.get at hg
  cases hfm : findMin q.queue with
  | none => rw [hfm] at hg; simp at hg
  | some m =>
    rw [hfm] at hg
    simp at hg
    obtain ⟨hme, hq'⟩ := hg
    subst hme
    subst hq'
    constructor
    · exact List.Pairwise.sublist (List.erase_sublist _ _) h.sorted
    · intro x hx
      exact h.bounded x (List.mem_of_mem_erase hx)
    · intro x hx
      exact h.wf x (List.mem_of_mem_erase hx)
    · exact Nat.le_trans (countNormal_sublist (List.erase_sublist _ _))
        h.normalBound
    · exact h.nonneg

theorem qinv_item_done {α : Type} {q q' : ItemQueue α} (h : QInv q)
    (hd : q.item_done = some q') : QInv q' := by
  unfold ItemQueue.item_done at hd
  by_cases hc : (0 : Int) ≤ q.unfinished_items - 1
  · simp [hc] at hd
    subst hd
    exact ⟨h.sorted, h.bounded, h.wf, h.normalBound, hc⟩
  · simp [hc] at hd

theorem qinv_applyOp {α : Type} [DecidableEq α] {q q' : ItemQueue α}
    {op : QOp α} (h : QInv q) (ha : applyOp q op = some q') : QInv q' := by
  cases op with
  | putItem a =>
    unfold applyOp at ha
    by_cases he : q.queue = []
    · simp [he] at ha
      subst ha
      exact qinv_put_item_now h he a
    · simp [he] at ha
  | putPoison =>
    unfold applyOp at ha
    simp at ha
    subst ha
    exact qinv_put_poison h
  | getOp =>
    unfold applyOp at ha
    cases hg : q.get with
    | none => rw [hg] at ha; simp at ha
    | some pr =>
      rw [hg] at ha
      simp at ha
      subst ha
      exact qinv_get h (by rw [hg])
  | itemDone => exact qinv_item_done h ha

theorem qinv_runFrom {α : Type} [DecidableEq α] {q q' : ItemQueue α}
    {ops : List (QOp α)} (h : QInv q) (hr : runFrom q ops = some q') :
    QInv q' := by
  induction ops generalizing q with
  | nil => unfold runFrom at hr; simp at hr; subst hr; exact h
  | cons op rest ih =>
    unfold runFrom at hr
    cases ha : applyOp q op with
    | none => rw [ha] at hr; simp at hr
    | some q1 =>
      rw [ha] at hr
      exact ih (qinv_applyOp h ha) hr

theorem qinv_run {α : Type} [DecidableEq α] {q : ItemQueue α}
    {ops : List (QOp α)} (hr : run ops = some q) : QInv q :=
  qinv_runFrom qinv_init hr

/-! ### Characterisation of `get` and the counters -/

theorem seq_ne_of_mem_ne {α : Type} {l : List (IQEntry α)}
    (hp : l.Pairwise (fun a b => a.seq < b.seq)) {a b : IQEntry α}
    (ha : a ∈ l) (hb : b ∈ l) (hne : a ≠ b) : a.seq ≠ b.seq := by
  have hs : l.Pairwise (fun x y : IQEntry α => x.seq ≠ y.seq) :=
    hp.imp (fun h => Nat.ne_of_lt h)
  exact hs.forall (fun x y hxy => hxy.symm) ha hb hne

theorem get_eq {α : Type} [DecidableEq α] {q q' : ItemQueue α} {e : IQEntry α}
    (hg : q.get = some (e, q')) :
    findMin q.queue = some e ∧ q' = { q with queue := q.queue.erase e } := by
  unfold ItemQueue.get at hg
  cases hfm : findMin q.queue with
  | none => rw [hfm] at hg; simp at hg
  | some m =>
    rw [hfm] at hg
    simp at hg
    obtain ⟨hme, hq'⟩ := hg
    subst hme
    exact ⟨rfl, hq'.symm⟩

theorem runFrom_unfinished {α : Type} [DecidableEq α] {q q' : ItemQueue α}
    {ops : List (QOp α)} (hr : runFrom q ops = some q') :
    q'.unfinished_items = q.unfinished_items + countPutOps ops - countDoneOps ops := by
  induction ops generalizing q with
  | nil =>
    unfold runFrom at hr
    simp at hr
    subst hr
    simp [countPutOps, countDoneOps]
  | cons op rest ih =>
    unfold runFrom at hr
    cases ha : applyOp q op with
    | none => rw [ha] at hr; simp at hr
    | some q1 =>
      rw [ha] at hr
      have hrest := ih hr
      cases op with
      | putItem a =>
        by_cases he : q.queue = []
        · simp [applyOp, he] at ha
          subst ha
          simp [ItemQueue.put_item_now, countPutOps, countDoneOps] at hrest ⊢
          omega
        · simp [applyOp, he] at ha
      | putPoison =>
        simp [applyOp] at ha
        subst ha
        simp [ItemQueue.put_poison_nowait, countPutOps, countDoneOps] at hrest ⊢
        omega
      | getOp =>
        simp only [applyOp] at ha
        cases hg : q.get with
        | none => rw [hg] at ha; simp at ha
        | some pr =>
          obtain ⟨e1, qr⟩ := pr
          rw [hg] at ha
          simp at ha
          subst ha
          have := (get_eq hg).2
          rw [this] at hrest
          simp [countPutOps, countDoneOps] at hrest ⊢
          omega
      | itemDone =>
        simp only [applyOp, ItemQueue.item_done] at ha
        by_cases hc : (0 : Int) ≤ q.unfinished_items - 1
        · simp [hc] at ha
          subst ha
          simp [countPutOps, countDoneOps] at hrest ⊢
          omega
        · simp [hc] at ha

theorem process_one_falsy {α : Type} {p : Producer α} {q : ItemQueue (PyVal α)}
    (h : isTruthy (takeSource p.item_source).1 = false) :
    p.process_one q = ({ p with item_source := (takeSource p.item_source).2 }, q, none) := by
  unfold Producer.process_one
  cases hs : (takeSource p.item_source).1 with
  | none => simp [hs]
  | some v =>
    rw [hs] at h
    simp [isTruthy] at h
    simp [hs, h]

theorem process_one_truthy {α : Type} {p : Producer α} {q : ItemQueue (PyVal α)}
    {v : PyVal α} (hs : (takeSource p.item_source).1 = some v)
    (hv : v.truthy = true) :
    p.process_one q =
      ({ p with item_source := (takeSource p.item_source).2 },
        q.put_item_now v, some v) := by
  unfold Producer.process_one
  simp [hs, hv]

/-! ### Claim theorems -/

/-- C1: over every completed sequence of work-queue operations, `get` returns
the pending entry minimal in (priority, sequence) lexicographic order —
priority class first, then the monotonically increasing enqueue counter — so
in particular a pending stop signal (priority 0) is dequeued at the next
`get` before every pending normal entry (priority 1), whatever their
sequence numbers, and every pending sequence number lies below the
never-reused counter. -/
theorem c1_priority_then_sequence_order {α : Type} [DecidableEq α]
    (ops : List (QOp α)) (q q' : ItemQueue α) (e : IQEntry α)
    (hrun : run ops = some q) (hget : q.get = some (e, q')) :
    (∀ x ∈ q'.queue, entryLt e x = true) ∧
    ((∃ p ∈ q.queue, p.load = QItem.poison) → e.load = QItem.poison) ∧
    (∀ x ∈ q.queue, x.seq < q.entry_count) := by
  have hinv := qinv_run hrun
  obtain ⟨hfm, hq'⟩ := get_eq hget
  have hmem := findMin_mem hfm
  have hleast := findMin_least hfm
  refine ⟨?_, ?_, hinv.bounded⟩
  · intro x hx
    rw [hq'] at hx
    have hnd := queue_nodup hinv
    have hxq : x ∈ q.queue := List.mem_of_mem_erase hx
    have hxe : x ≠ e := (hnd.mem_erase_iff.mp hx).1
    exact entryLt_flip (hleast x hxq)
      (seq_ne_of_mem_ne hinv.sorted hxq hmem hxe)
  · rintro ⟨p, hp, hpois⟩
    by_contra hne
    have hwfp := hinv.wf p hp
    have hwfe := hinv.wf e hmem
    have hp0 : p.priority = POISON_PRIORITY := by
      rcases hwfp with ⟨h1, _⟩ | ⟨_, h2⟩
      · exact h1
      · exact absurd hpois h2
    have he1 : e.priority = ITEM_PRIORITY := by
      rcases hwfe with ⟨_, h1⟩ | ⟨h2, _⟩
      · exact absurd h1 hne
      · exact h2
    have : entryLt p e = true := by
      rw [entryLt_iff, hp0, he1]
      exact Or.inl (by simp [POISON_PRIORITY, ITEM_PRIORITY])
    rw [hleast p hp] at this
    exact Bool.false_ne_true this

/-- C2: over every completed sequence of work-queue operations, at most one
normal (producer-enqueued) entry is ever pending; `put_item` is enabled
exactly when the queue holds no pending entry (its wait loop), each `get`
removes exactly one pending entry — so a `get` on the last pending entry
leaves the empty queue that unblocks a waiting producer — and the insertion
`put_item` then performs puts exactly one normal entry. -/
theorem c2_put_item_bounded_lookahead {α : Type} [DecidableEq α]
    (ops : List (QOp α)) (q : ItemQueue α) (hrun : run ops = some q) :
    countNormal q.queue ≤ 1 ∧
    (∀ a : α, (applyOp q (QOp.putItem a)).isSome = true ↔ q.queue = []) ∧
    (∀ (e : IQEntry α) (q' : ItemQueue α),
      q.get = some (e, q') → q'.queue.length + 1 = q.queue.length) ∧
    (∀ a : α, q.queue = [] →
      (q.put_item_now a).queue =
        [⟨ITEM_PRIORITY, q.entry_count, QItem.item a⟩]) := by
  have hinv := qinv_run hrun
  refine ⟨hinv.normalBound, ?_, ?_, ?_⟩
  · intro a
    by_cases he : q.queue = [] <;> simp [applyOp, he]
  · intro e q' hget
    obtain ⟨hfm, hq'⟩ := get_eq hget
    have hmem := findMin_mem hfm
    have hlen := List.length_erase_of_mem hmem
    have hpos : 0 < q.queue.length := List.length_pos_of_mem hmem
    rw [hq']
    simp [hlen]
    omega
  · intro a he
    simp [ItemQueue.put_item_now, he]

/-- C3: over every completed sequence of work-queue operations, the in-flight
counter equals the number of `put_item` calls minus the number of
`item_done` calls, it is never negative (a decrement below zero trips the
assertion and is excluded from completed executions), and — when the item
source yields nothing — the producer loop takes its terminating branch
exactly when the counter is zero. -/
theorem c3_inflight_counter {α : Type} [DecidableEq α]
    (ops : List (QOp (PyVal α))) (q : ItemQueue (PyVal α))
    (hrun : run ops = some q) (p : Producer α) :
    q.unfinished_items = countPutOps ops - countDoneOps ops ∧
    0 ≤ q.unfinished_items ∧
    (isTruthy (takeSource p.item_source).1 = false →
      ((p.processStep q).2.2 = LoopEvent.stoppedExhausted ↔
        q.unfinished_items = 0)) := by
  have hcount := runFrom_unfinished hrun
  simp [ItemQueue.init] at hcount
  refine ⟨hcount, (qinv_run hrun).nonneg, ?_⟩
  intro hfalsy
  unfold Producer.processStep
  rw [process_one_falsy hfalsy]
  by_cases hz : q.unfinished_items = 0 <;> simp [hz]

/-- Witness for C1 at the trace `put_item 5; put_poison_nowait`: the stop
signal enqueued second is dequeued before the earlier normal entry. -/
theorem c1_priority_then_sequence_order_witness :
    (∀ x ∈ ({ queue := [⟨1, 0, QItem.item 5⟩], unfinished_items := 1, entry_count := 2 } : ItemQueue Nat).queue,
        entryLt (⟨0, 1, QItem.poison⟩ : IQEntry Nat) x = true) ∧
    ((∃ p ∈ ({ queue := [⟨1, 0, QItem.item 5⟩, ⟨0, 1, QItem.poison⟩], unfinished_items := 1, entry_count := 2 } : ItemQueue Nat).queue,
        p.load = QItem.poison) →
      (⟨0, 1, QItem.poison⟩ : IQEntry Nat).load = QItem.poison) ∧
    (∀ x ∈ ({ queue := [⟨1, 0, QItem.item 5⟩, ⟨0, 1, QItem.poison⟩], unfinished_items := 1, entry_count := 2 } : ItemQueue Nat).queue,
        x.seq < ({ queue := [⟨1, 0, QItem.item 5⟩, ⟨0, 1, QItem.poison⟩], unfinished_items := 1, entry_count := 2 } : ItemQueue Nat).entry_count) :=
  c1_priority_then_sequence_order [QOp.putItem 5, QOp.putPoison]
    { queue := [⟨1, 0, QItem.item 5⟩, ⟨0, 1, QItem.poison⟩], unfinished_items := 1, entry_count := 2 }
    { queue := [⟨1, 0, QItem.item 5⟩], unfinished_items := 1, entry_count := 2 }
    ⟨0, 1, QItem.poison⟩ (by decide) (by decide)

/-- Witness for C2 at the trace `put_item 7`. -/
theorem c2_put_item_bounded_lookahead_witness :
    countNormal ({ queue := [⟨1, 0, QItem.item 7⟩], unfinished_items := 1, entry_count := 1 } : ItemQueue Nat).queue ≤ 1 ∧
    (∀ a : Nat,
      (applyOp ({ queue := [⟨1, 0, QItem.item 7⟩], unfinished_items := 1, entry_count := 1 } : ItemQueue Nat) (QOp.putItem a)).isSome = true ↔
        ({ queue := [⟨1, 0, QItem.item 7⟩], unfinished_items := 1, entry_count := 1 } : ItemQueue Nat).queue = []) ∧
    (∀ (e : IQEntry Nat) (q' : ItemQueue Nat),
      ({ queue := [⟨1, 0, QItem.item 7⟩], unfinished_items := 1, entry_count := 1 } : ItemQueue Nat).get = some (e, q') →
        q'.queue.length + 1 =
          ({ queue := [⟨1, 0, QItem.item 7⟩], unfinished_items := 1, entry_count := 1 } : ItemQueue Nat).queue.length) ∧
    (∀ a : Nat,
      ({ queue := [⟨1, 0, QItem.item 7⟩], unfinished_items := 1, entry_count := 1 } : ItemQueue Nat).queue = [] →
        (({ queue := [⟨1, 0, QItem.item 7⟩], unfinished_items := 1, entry_count := 1 } : ItemQueue Nat).put_item_now a).queue =
          [⟨ITEM_PRIORITY, ({ queue := [⟨1, 0, QItem.item 7⟩], unfinished_items := 1, entry_count := 1 } : ItemQueue Nat).entry_count, QItem.item a⟩]) :=
  c2_put_item_bounded_lookahead [QOp.putItem 7]
    { queue := [⟨1, 0, QItem.item 7⟩], unfinished_items := 1, entry_count := 1 }
    (by decide)

/-- Witness for C3 at the trace `put_item ⟨5, truthy⟩; get; item_done` with
an exhausted source: one put and one done leave a zero counter and the
producer loop takes its terminating branch. -/
theorem c3_inflight_counter_witness :
    ({ queue := [], unfinished_items := 0, entry_count := 1 } : ItemQueue (PyVal Nat)).unfinished_items =
      countPutOps [QOp.putItem (⟨5, true⟩ : PyVal Nat), QOp.getOp, QOp.itemDone] -
        countDoneOps [QOp.putItem (⟨5, true⟩ : PyVal Nat), QOp.getOp, QOp.itemDone] ∧
    (0 : Int) ≤ ({ queue := [], unfinished_items := 0, entry_count := 1 } : ItemQueue (PyVal Nat)).unfinished_items ∧
    (isTruthy (takeSource (Producer.mk (α := Nat) [] false).item_source).1 = false →
      (((Producer.mk (α := Nat) [] false).processStep ({ queue := [], unfinished_items := 0, entry_count := 1 } : ItemQueue (PyVal Nat))).2.2 = LoopEvent.stoppedExhausted ↔
        ({ queue := [], unfinished_items := 0, entry_count := 1 } : ItemQueue (PyVal Nat)).unfinished_items = 0)) :=
  c3_inflight_counter [QOp.putItem ⟨5, true⟩, QOp.getOp, QOp.itemDone]
    { queue := [], unfinished_items := 0, entry_count := 1 }
    (by decide) (Producer.mk [] false)

theorem processStep_falsy_zero {α : Type} {p : Producer α}
    {q : ItemQueue (PyVal α)} (hf : isTruthy (takeSource p.item_source).1 = false)
    (hz : q.unfinished_items = 0) :
    p.processStep q =
      (Producer.stop { p with item_source := (takeSource p.item_source).2 },
        q, LoopEvent.stoppedExhausted) := by
  unfold Producer.processStep
  rw [process_one_falsy hf]
  simp [hz]

theorem processStep_falsy_nonzero {α : Type} {p : Producer α}
    {q : ItemQueue (PyVal α)} (hf : isTruthy (takeSource p.item_source).1 = false)
    (hz : q.unfinished_items ≠ 0) :
    p.processStep q =
      ({ p with item_source := (takeSource p.item_source).2 },
        q, LoopEvent.waitedForWorker) := by
  unfold Producer.processStep
  rw [process_one_falsy hf]
  simp [hz]

theorem processStep_truthy {α : Type} {p : Producer α}
    {q : ItemQueue (PyVal α)} {v : PyVal α}
    (hs : (takeSource p.item_source).1 = some v) (hv : v.truthy = true) :
    p.processStep q =
      ({ p with item_source := (takeSource p.item_source).2 },
        q.put_item_now v, LoopEvent.enqueued) := by
  unfold Producer.processStep
  rw [process_one_truthy hs hv]
  simp

theorem processLoop_not_running {α : Type} {p : Producer α}
    {q : ItemQueue (PyVal α)} (h : p.running = false) (fuel : Nat) :
    Producer.processLoop (fuel + 1) p q = some (p, q) := by
  simp [Producer.processLoop, h]

theorem stop_running_false {α : Type} (p : Producer α) :
    (p.stop).running = false := by
  unfold Producer.stop
  by_cases h : p.running = true
  · simp [h]
  · simp at h
    simp [h]

theorem stop_idem {α : Type} (p : Producer α) : p.stop.stop = p.stop := by
  unfold Producer.stop
  by_cases h : p.running = true <;> simp [h]

/-- C4: for the producer loop, when the source yields no (truthy) item and
the in-flight counter is zero the loop stops permanently — `stop()` is
applied, the running flag is cleared and the loop exits returning that
state; when the source yields nothing but work is in flight, the iteration
waits for a worker, leaves the running flag and the queue untouched and the
loop retries; `stop()` is idempotent and always leaves the flag cleared;
and a stopped producer's loop exits at the next iteration boundary. -/
theorem c4_producer_loop {α : Type} (p : Producer α) (q : ItemQueue (PyVal α))
    (fuel : Nat) :
    (isTruthy (takeSource p.item_source).1 = false → q.unfinished_items = 0 →
      (p.processStep q).2.2 = LoopEvent.stoppedExhausted ∧
      ((p.processStep q).1).running = false ∧
      (p.running = true →
        Producer.processLoop (fuel + 1) p q =
          some ((p.processStep q).1, q))) ∧
    (isTruthy (takeSource p.item_source).1 = false → q.unfinished_items ≠ 0 →
      (p.processStep q).2.2 = LoopEvent.waitedForWorker ∧
      ((p.processStep q).1).running = p.running ∧
      (p.processStep q).2.1 = q ∧
      (p.running = true →
        Producer.processLoop (fuel + 1) p q =
          Producer.processLoop fuel ((p.processStep q).1) q)) ∧
    (p.stop.stop = p.stop ∧ (p.stop).running = false) ∧
    (p.running = false → Producer.processLoop (fuel + 1) p q = some (p, q)) := by
  refine ⟨?_, ?_, ⟨stop_idem p, stop_running_false p⟩, fun h => processLoop_not_running h fuel⟩
  · intro hf hz
    rw [processStep_falsy_zero hf hz]
    refine ⟨rfl, stop_running_false _, ?_⟩
    intro hrun
    simp [Producer.processLoop, hrun, processStep_falsy_zero hf hz]
  · intro hf hz
    rw [processStep_falsy_nonzero hf hz]
    refine ⟨rfl, rfl, rfl, ?_⟩
    intro hrun
    simp [Producer.processLoop, hrun, processStep_falsy_nonzero hf hz]

/-- Witness for C4: with an exhausted source and an idle queue the loop
stops with the running flag cleared; with work in flight it waits; `stop`
is idempotent; a stopped producer's loop exits immediately. -/
theorem c4_producer_loop_witness :
    ((Producer.mk (α := Nat) [] true).processStep ItemQueue.init).2.2 = LoopEvent.stoppedExhausted ∧
    (((Producer.mk (α := Nat) [] true).processStep ItemQueue.init).1).running = false ∧
    Producer.processLoop 1 (Producer.mk (α := Nat) [] true) ItemQueue.init =
      some (((Producer.mk (α := Nat) [] true).processStep ItemQueue.init).1, ItemQueue.init) ∧
    ((Producer.mk (α := Nat) [] true).processStep
      ({ queue := [], unfinished_items := 1, entry_count := 0 } : ItemQueue (PyVal Nat))).2.2 = LoopEvent.waitedForWorker ∧
    (Producer.mk (α := Nat) [] false).stop.stop = (Producer.mk (α := Nat) [] false).stop ∧
    Producer.processLoop 1 (Producer.mk (α := Nat) [] false) ItemQueue.init =
      some (Producer.mk (α := Nat) [] false, ItemQueue.init) :=
  ⟨((c4_producer_loop (Producer.mk [] true) ItemQueue.init 0).1 (by decide) (by decide)).1,
    ((c4_producer_loop (Producer.mk [] true) ItemQueue.init 0).1 (by decide) (by decide)).2.1,
    ((c4_producer_loop (Producer.mk [] true) ItemQueue.init 0).1 (by decide) (by decide)).2.2 rfl,
    ((c4_producer_loop (Producer.mk [] true)
      { queue := [], unfinished_items := 1, entry_count := 0 } 0).2.1 (by decide) (by decide)).1,
    (c4_producer_loop (Producer.mk (α := Nat) [] false) ItemQueue.init 0).2.2.1.1,
    (c4_producer_loop (Producer.mk (α := Nat) [] false) ItemQueue.init 0).2.2.2 rfl⟩

/-- C8: the producer enqueues the value returned by the item source iff it
is truthy: a truthy value is put on the queue and returned, while `None`
and every falsy value (`0`, empty string, falsy object) yield no item,
leave the queue untouched and send the loop into the exhaustion check or
the wait-for-worker retry. -/
theorem c8_enqueue_iff_truthy {α : Type} (p : Producer α)
    (q : ItemQueue (PyVal α)) :
    (∀ v : PyVal α, (takeSource p.item_source).1 = some v → v.truthy = true →
      p.process_one q =
        ({ p with item_source := (takeSource p.item_source).2 },
          q.put_item_now v, some v)) ∧
    (isTruthy (takeSource p.item_source).1 = false →
      p.process_one q =
        ({ p with item_source := (takeSource p.item_source).2 }, q, none) ∧
      ((p.processStep q).2.2 = LoopEvent.stoppedExhausted ∨
        (p.processStep q).2.2 = LoopEvent.waitedForWorker)) := by
  constructor
  · intro v hs hv
    exact process_one_truthy hs hv
  · intro hf
    refine ⟨process_one_falsy hf, ?_⟩
    by_cases hz : q.unfinished_items = 0
    · rw [processStep_falsy_zero hf hz]
      exact Or.inl rfl
    · rw [processStep_falsy_nonzero hf hz]
      exact Or.inr rfl

/-- Witness for C8: a source yielding the truthy item 7 enqueues it; a
source yielding the falsy item 0 (not `None`) enqueues nothing and the loop
falls into the exhaustion check or the wait. -/
theorem c8_enqueue_iff_truthy_witness :
    (Producer.mk (α := Nat) [some ⟨7, true⟩] true).process_one ItemQueue.init =
      (Producer.mk (α := Nat) [] true, ItemQueue.init.put_item_now ⟨7, true⟩, some ⟨7, true⟩) ∧
    (Producer.mk (α := Nat) [some ⟨0, false⟩] true).process_one ItemQueue.init =
      (Producer.mk (α := Nat) [] true, ItemQueue.init, none) ∧
    (((Producer.mk (α := Nat) [some ⟨0, false⟩] true).processStep ItemQueue.init).2.2 = LoopEvent.stoppedExhausted ∨
      ((Producer.mk (α := Nat) [some ⟨0, false⟩] true).processStep ItemQueue.init).2.2 = LoopEvent.waitedForWorker) :=
  ⟨(c8_enqueue_iff_truthy (Producer.mk [some ⟨7, true⟩] true) ItemQueue.init).1 ⟨7, true⟩ rfl rfl,
    ((c8_enqueue_iff_truthy (Producer.mk [some ⟨0, false⟩] true) ItemQueue.init).2 (by decide)).1,
    ((c8_enqueue_iff_truthy (Producer.mk [some ⟨0, false⟩] true) ItemQueue.init).2 (by decide)).2⟩

/-- C9: when a task of the worker chain raises on an item, `item_done` is
not called — the outcome is an error and the in-flight counter is
unchanged — while a fully processed item calls `item_done` and decrements
the counter by one; over every completed trace the counter therefore equals
enqueued minus successfully completed items, and that is exactly the count
`_warn_discarded_items` reports. -/
theorem c9_error_skips_item_done {α : Type} [DecidableEq α] (w : Worker α)
    (q : ItemQueue (PyVal α)) :
    (∀ (e : IQEntry (PyVal α)) (q1 : ItemQueue (PyVal α)) (u : PyVal α),
      q.get = some (e, q1) → e.load = QItem.item u →
      runTasks w.tasks u = false →
        w.process_one q = some (q1, WorkerOutcome.error u) ∧
        q1.unfinished_items = q.unfinished_items) ∧
    (∀ (e : IQEntry (PyVal α)) (q1 q2 : ItemQueue (PyVal α)) (u : PyVal α),
      q.get = some (e, q1) → e.load = QItem.item u →
      runTasks w.tasks u = true → q1.item_done = some q2 →
        w.process_one q = some (q2, WorkerOutcome.done u) ∧
        q2.unfinished_items = q.unfinished_items - 1) ∧
    (∀ (ops : List (QOp (PyVal α))) (q' : ItemQueue (PyVal α)),
      run ops = some q' →
        q'.unfinished_items = countPutOps ops - countDoneOps ops) ∧
    (∀ pl : Pipeline α, pl.warn_discarded_count = pl.item_queue.unfinished_items) := by
  refine ⟨?_, ?_, ?_, fun pl => rfl⟩
  · intro e q1 u hg hl ht
    have hq1 : q1.unfinished_items = q.unfinished_items := by
      rw [(get_eq hg).2]
    refine ⟨?_, hq1⟩
    unfold Worker.process_one
    rw [hg]
    simp [hl, ht]
  · intro e q1 q2 u hg hl ht hd
    have hq1 : q1.unfinished_items = q.unfinished_items := by
      rw [(get_eq hg).2]
    have hq2 : q2.unfinished_items = q1.unfinished_items - 1 := by
      unfold ItemQueue.item_done at hd
      by_cases hc : (0 : Int) ≤ q1.unfinished_items - 1
      · simp [hc] at hd
        rw [← hd]
      · simp [hc] at hd
    refine ⟨?_, by rw [hq2, hq1]⟩
    unfold Worker.process_one
    rw [hg]
    simp [hl, ht, hd]
  · intro ops q' hr
    have := runFrom_unfinished hr
    simpa [ItemQueue.init] using this

/-- Witness for C9: a single task that raises on falsy items leaves the
counter at 1 for the falsy item 3 (error, no `item_done`) and drops it to 0
for the truthy item 3 (success); the trace counter identity and the
discarded-items report are checked at concrete states. -/
theorem c9_error_skips_item_done_witness :
    ((Worker.mk (α := Nat) [fun v => v.truthy]).process_one
        (⟨[⟨1, 0, QItem.item ⟨3, false⟩⟩], 1, 1⟩ : ItemQueue (PyVal Nat)) =
      some (⟨[], 1, 1⟩, WorkerOutcome.error ⟨3, false⟩) ∧
      (⟨[], 1, 1⟩ : ItemQueue (PyVal Nat)).unfinished_items =
        (⟨[⟨1, 0, QItem.item ⟨3, false⟩⟩], 1, 1⟩ : ItemQueue (PyVal Nat)).unfinished_items) ∧
    ((Worker.mk (α := Nat) [fun v => v.truthy]).process_one
        (⟨[⟨1, 0, QItem.item ⟨3, true⟩⟩], 1, 1⟩ : ItemQueue (PyVal Nat)) =
      some (⟨[], 0, 1⟩, WorkerOutcome.done ⟨3, true⟩) ∧
      (⟨[], 0, 1⟩ : ItemQueue (PyVal Nat)).unfinished_items =
        (⟨[⟨1, 0, QItem.item ⟨3, true⟩⟩], 1, 1⟩ : ItemQueue (PyVal Nat)).unfinished_items - 1) ∧
    (⟨[⟨1, 0, QItem.item ⟨3, true⟩⟩], 1, 1⟩ : ItemQueue (PyVal Nat)).unfinished_items =
      countPutOps [QOp.putItem (⟨3, true⟩ : PyVal Nat)] -
        countDoneOps [QOp.putItem (⟨3, true⟩ : PyVal Nat)] ∧
    (Pipeline.mk (α := Nat) ⟨[], 4, 2⟩ ⟨[], false⟩ PipelineState.stopped 1 0 false).warn_discarded_count =
      (Pipeline.mk (α := Nat) ⟨[], 4, 2⟩ ⟨[], false⟩ PipelineState.stopped 1 0 false).item_queue.unfinished_items :=
  ⟨(c9_error_skips_item_done (Worker.mk [fun v => v.truthy])
      ⟨[⟨1, 0, QItem.item ⟨3, false⟩⟩], 1, 1⟩).1
      ⟨1, 0, QItem.item ⟨3, false⟩⟩ ⟨[], 1, 1⟩ ⟨3, false⟩
      (by decide) (by decide) rfl,
    (c9_error_skips_item_done (Worker.mk [fun v => v.truthy])
      ⟨[⟨1, 0, QItem.item ⟨3, true⟩⟩], 1, 1⟩).2.1
      ⟨1, 0, QItem.item ⟨3, true⟩⟩ ⟨[], 1, 1⟩ ⟨[], 0, 1⟩ ⟨3, true⟩
      (by decide) (by decide) rfl (by decide),
    (c9_error_skips_item_done (Worker.mk (α := Nat) [fun v => v.truthy])
      ⟨[⟨1, 0, QItem.item ⟨3, true⟩⟩], 1, 1⟩).2.2.1
      [QOp.putItem ⟨3, true⟩] ⟨[⟨1, 0, QItem.item ⟨3, true⟩⟩], 1, 1⟩ (by decide),
    (c9_error_skips_item_done (Worker.mk (α := Nat) [fun v => v.truthy])
      ⟨[⟨1, 0, QItem.item ⟨3, true⟩⟩], 1, 1⟩).2.2.2
      (Pipeline.mk ⟨[], 4, 2⟩ ⟨[], false⟩ PipelineState.stopped 1 0 false)⟩

theorem countPoison_put_poison_nowait {α : Type} (q : ItemQueue α) :
    countPoison (q.put_poison_nowait).queue = countPoison q.queue + 1 := by
  simp [ItemQueue.put_poison_nowait, countPoison_append, countPoison,
    QItem.isPoison]

theorem countPoison_put_poisons {α : Type} (q : ItemQueue α) (n : Nat) :
    countPoison (q.put_poisons n).queue = countPoison q.queue + n := by
  induction n generalizing q with
  | zero => simp [ItemQueue.put_poisons]
  | succ n ih =>
    show countPoison (q.put_poison_nowait.put_poisons n).queue = _
    rw [ih, countPoison_put_poison_nowait]
    omega

/-- C7: the `concurrency` setter on a running pipeline with a non-negative
target `n` raises nothing, stores `n`, enqueues exactly `old − n` stop
signals when `n` is below the old target and exactly one when it is above
(none when equal), clears the unpaused event exactly when `n` is zero, and
leaves the lifecycle state alone. -/
theorem c7_concurrency_running {α : Type} (p : Pipeline α) (n : Int)
    (hrun : p.state = PipelineState.running) (hn : 0 ≤ n) :
    (p.set_concurrency n).2 = none ∧
    ((p.set_concurrency n).1).concurrency = n ∧
    countPoison ((p.set_concurrency n).1).item_queue.queue =
      countPoison p.item_queue.queue +
        (if n < p.concurrency then (p.concurrency - n).toNat
         else if p.concurrency < n then 1 else 0) ∧
    ((p.set_concurrency n).1).unpaused_event = decide (n ≠ 0) ∧
    ((p.set_concurrency n).1).state = p.state := by
  have hval : p.set_concurrency n =
      ({ p with
          concurrency := n
          item_queue :=
            if n - p.concurrency < 0 then
              p.item_queue.put_poisons (n - p.concurrency).natAbs
            else if 0 < n - p.concurrency then p.item_queue.put_poison_nowait
            else p.item_queue
          unpaused_event := decide (n ≠ 0) }, none) := by
    unfold Pipeline.set_concurrency
    rw [if_neg (by omega)]
    simp only [hrun, ne_eq, not_true_eq_false, if_false]
    by_cases hlt : n - p.concurrency < 0
    · rw [if_pos hlt, if_pos hlt]
      by_cases hz : n = 0 <;> simp [hz]
    · rw [if_neg hlt, if_neg hlt]
      by_cases hgt : 0 < n - p.concurrency
      · rw [if_pos hgt, if_pos hgt]
        by_cases hz : n = 0 <;> simp [hz]
      · rw [if_neg hgt, if_neg hgt]
        by_cases hz : n = 0 <;> simp [hz]
  rw [hval]
  refine ⟨rfl, rfl, ?_, rfl, rfl⟩
  by_cases hlt : n - p.concurrency < 0
  · rw [if_pos hlt, countPoison_put_poisons, if_pos (by omega : n < p.concurrency)]
    omega
  · rw [if_neg hlt]
    by_cases hgt : 0 < n - p.concurrency
    · rw [if_pos hgt, countPoison_put_poison_nowait,
        if_neg (by omega : ¬ n < p.concurrency), if_pos (by omega : p.concurrency < n)]
    · rw [if_neg hgt, if_neg (by omega : ¬ n < p.concurrency),
        if_neg (by omega : ¬ p.concurrency < n)]
      simp

/-- Witness for C7: a running pipeline at target 3 set to 1 gains exactly
two poison pills and keeps the unpaused event set. -/
theorem c7_concurrency_running_witness :
    ((Pipeline.mk (α := Nat) ⟨[], 0, 0⟩ ⟨[], false⟩ PipelineState.running 3 0 true).set_concurrency 1).2 = none ∧
    (((Pipeline.mk (α := Nat) ⟨[], 0, 0⟩ ⟨[], false⟩ PipelineState.running 3 0 true).set_concurrency 1).1).concurrency = 1 ∧
    countPoison (((Pipeline.mk (α := Nat) ⟨[], 0, 0⟩ ⟨[], false⟩ PipelineState.running 3 0 true).set_concurrency 1).1).item_queue.queue =
      countPoison (Pipeline.mk (α := Nat) ⟨[], 0, 0⟩ ⟨[], false⟩ PipelineState.running 3 0 true).item_queue.queue +
        (if (1 : Int) < (Pipeline.mk (α := Nat) ⟨[], 0, 0⟩ ⟨[], false⟩ PipelineState.running 3 0 true).concurrency
         then ((Pipeline.mk (α := Nat) ⟨[], 0, 0⟩ ⟨[], false⟩ PipelineState.running 3 0 true).concurrency - 1).toNat
         else if (Pipeline.mk (α := Nat) ⟨[], 0, 0⟩ ⟨[], false⟩ PipelineState.running 3 0 true).concurrency < 1 then 1 else 0) ∧
    (((Pipeline.mk (α := Nat) ⟨[], 0, 0⟩ ⟨[], false⟩ PipelineState.running 3 0 true).set_concurrency 1).1).unpaused_event = decide ((1 : Int) ≠ 0) ∧
    (((Pipeline.mk (α := Nat) ⟨[], 0, 0⟩ ⟨[], false⟩ PipelineState.running 3 0 true).set_concurrency 1).1).state =
      (Pipeline.mk (α := Nat) ⟨[], 0, 0⟩ ⟨[], false⟩ PipelineState.running 3 0 true).state :=
  c7_concurrency_running (Pipeline.mk ⟨[], 0, 0⟩ ⟨[], false⟩ PipelineState.running 3 0 true) 1
    (by decide) (by decide)

/-- C10: the `concurrency` setter with a non-negative target on a pipeline
that is not running returns without error and mutates exactly the stored
target: queue, producer, state, worker tasks and the unpaused event are
untouched. -/
theorem c10_concurrency_not_running {α : Type} (p : Pipeline α) (n : Int)
    (hns : p.state ≠ PipelineState.running) (hn : 0 ≤ n) :
    p.set_concurrency n = ({ p with concurrency := n }, none) := by
  unfold Pipeline.set_concurrency
  rw [if_neg (by omega)]
  simp [hns]

/-- Witness for C10: a stopped pipeline set to concurrency 5 changes the
stored target only. -/
theorem c10_concurrency_not_running_witness :
    (Pipeline.mk (α := Nat) ⟨[], 0, 0⟩ ⟨[], false⟩ PipelineState.stopped 1 2 true).set_concurrency 5 =
      (Pipeline.mk (α := Nat) ⟨[], 0, 0⟩ ⟨[], false⟩ PipelineState.stopped 5 2 true, none) :=
  c10_concurrency_not_running
    (Pipeline.mk ⟨[], 0, 0⟩ ⟨[], false⟩ PipelineState.stopped 1 2 true) 5
    (by decide) (by decide)

theorem setMemberPipelines_neg_err {α : Type} {n : Int} (hn : n < 0)
    (l : List (Pipeline α × Bool)) :
    ((setMemberPipelines n l).2 = none ↔ l.all (fun pr => !pr.2) = true) := by
  induction l with
  | nil => simp [setMemberPipelines]
  | cons pr rest ih =>
    obtain ⟨p, flag⟩ := pr
    cases flag
    · simpa [setMemberPipelines] using ih
    · have hp : p.set_concurrency n = (p, some "Concurrency cannot be negative") := by
        unfold Pipeline.set_concurrency
        rw [if_pos hn]
      simp [setMemberPipelines, hp]

/-- Counterexample to C6 as stated: setting the negative concurrency −1 on
a `PipelineSeries` with no pipeline registered for concurrency raises no
error at all, and the series' stored concurrency is mutated from 5 to −1 —
the rejection is neither immediate nor state-preserving on the series. -/
theorem c6_counterexample :
    ((PipelineSeries.mk (α := Nat) [] 5).set_concurrency (-1)).2 = none ∧
    (((PipelineSeries.mk (α := Nat) [] 5).set_concurrency (-1)).1).concurrency = -1 ∧
    ((-1 : Int) < 0) :=
  ⟨rfl, rfl, by decide⟩

/-- C6 amended: a negative concurrency on a `Pipeline` is rejected
immediately and synchronously before any mutation, the setter returning the
untouched state with the error.  On a `PipelineSeries` the negative value
is stored without validation: the stored concurrency becomes the negative
value, and an error is raised (by a member pipeline's setter, after the
series mutation) exactly when some member pipeline is registered for
concurrency. -/
theorem c6_negative_concurrency {α : Type} (p : Pipeline α)
    (s : PipelineSeries α) (n : Int) (hn : n < 0) :
    p.set_concurrency n = (p, some "Concurrency cannot be negative") ∧
    ((s.set_concurrency n).1).concurrency = n ∧
    ((s.set_concurrency n).2 = none ↔
      s.pipelines.all (fun pr => !pr.2) = true) := by
  refine ⟨?_, rfl, ?_⟩
  · unfold Pipeline.set_concurrency
    rw [if_pos hn]
  · exact setMemberPipelines_neg_err hn s.pipelines

/-- Witness for C6 (amended) at a pipeline and a series holding one
registered member pipeline: the pipeline setter raises before mutating, the
series stores −1 and the flagged member makes the error propagate. -/
theorem c6_negative_concurrency_witness :
    (Pipeline.mk (α := Nat) ⟨[], 0, 0⟩ ⟨[], false⟩ PipelineState.stopped 1 0 false).set_concurrency (-1) =
      (Pipeline.mk (α := Nat) ⟨[], 0, 0⟩ ⟨[], false⟩ PipelineState.stopped 1 0 false,
        some "Concurrency cannot be negative") ∧
    (((PipelineSeries.mk (α := Nat)
        [(Pipeline.mk ⟨[], 0, 0⟩ ⟨[], false⟩ PipelineState.stopped 1 0 false, true)] 5).set_concurrency (-1)).1).concurrency = -1 ∧
    ((((PipelineSeries.mk (α := Nat)
        [(Pipeline.mk ⟨[], 0, 0⟩ ⟨[], false⟩ PipelineState.stopped 1 0 false, true)] 5).set_concurrency (-1)).2 = none) ↔
      ([(Pipeline.mk (α := Nat) ⟨[], 0, 0⟩ ⟨[], false⟩ PipelineState.stopped 1 0 false, true)].all (fun pr => !pr.2) = true)) :=
  ⟨(c6_negative_concurrency
      (Pipeline.mk ⟨[], 0, 0⟩ ⟨[], false⟩ PipelineState.stopped 1 0 false)
      (PipelineSeries.mk [] 5) (-1) (by decide)).1,
    (c6_negative_concurrency
      (Pipeline.mk (α := Nat) ⟨[], 0, 0⟩ ⟨[], false⟩ PipelineState.stopped 1 0 false)
      (PipelineSeries.mk
        [(Pipeline.mk ⟨[], 0, 0⟩ ⟨[], false⟩ PipelineState.stopped 1 0 false, true)] 5)
      (-1) (by decide)).2.1,
    (c6_negative_concurrency
      (Pipeline.mk (α := Nat) ⟨[], 0, 0⟩ ⟨[], false⟩ PipelineState.stopped 1 0 false)
      (PipelineSeries.mk
        [(Pipeline.mk ⟨[], 0, 0⟩ ⟨[], false⟩ PipelineState.stopped 1 0 false, true)] 5)
      (-1) (by decide)).2.2⟩

/-- Counterexample to C5 as stated: with the producer task holding a
non-`StopIteration` exception, `_shutdown_processing` re-raises it after
draining the single worker, but the final `self._state = stopped`
assignment is skipped — the pipeline is left in `stopping`, not
`stopped`. -/
theorem c5_counterexample :
    (Pipeline.mk (α := Nat) ⟨[], 0, 0⟩ ⟨[], false⟩ PipelineState.stopping 1 1 true).shutdown_processing
        (some ⟨false, 0⟩) =
      some (Pipeline.mk (α := Nat) ⟨[], 0, 0⟩ ⟨[], false⟩ PipelineState.stopping 1 0 true,
        some ⟨false, 0⟩,
        [ShutdownEvent.waitWorkers, ShutdownEvent.waitProducer]) ∧
    (Pipeline.mk (α := Nat) ⟨[], 0, 0⟩ ⟨[], false⟩ PipelineState.stopping 1 0 true).state ≠
      PipelineState.stopped :=
  ⟨rfl, by decide⟩

/-- C5 amended: `stop()` on a running pipeline moves the state to
`stopping`, stops the producer and enqueues exactly one stop signal per
currently active worker task, touching nothing else; `stop()` in any other
state changes nothing.  `_shutdown_processing` awaits the workers (when any
exist) and then the producer, in that order; a stored producer exception is
re-raised to the caller only after that drain, and the state becomes
`stopped` only when the producer task finished without an exception — on a
re-raise the state remains `stopping`.  `_run_producer_wrapper` stores
every caught exception for that re-raise, calling `stop()` for every
outcome except a `StopIteration` exception. -/
theorem c5_stop_and_shutdown {α : Type} (p : Pipeline α) (e : PExc) :
    (p.state = PipelineState.running →
      (p.stop).state = PipelineState.stopping ∧
      ((p.stop).producer).running = false ∧
      countPoison (p.stop).item_queue.queue =
        countPoison p.item_queue.queue + p.worker_tasks ∧
      (p.stop).worker_tasks = p.worker_tasks ∧
      (p.stop).concurrency = p.concurrency ∧
      (p.stop).unpaused_event = p.unpaused_event) ∧
    (p.state ≠ PipelineState.running → p.stop = p) ∧
    (p.state = PipelineState.stopping →
      p.shutdown_processing none =
        some ({ p with worker_tasks := 0, state := PipelineState.stopped },
          none,
          (if p.worker_tasks ≠ 0 then [ShutdownEvent.waitWorkers] else []) ++
            [ShutdownEvent.waitProducer]) ∧
      p.shutdown_processing (some e) =
        some ({ p with worker_tasks := 0 }, some e,
          (if p.worker_tasks ≠ 0 then [ShutdownEvent.waitWorkers] else []) ++
            [ShutdownEvent.waitProducer]) ∧
      ({ p with worker_tasks := 0 } : Pipeline α).state =
        PipelineState.stopping) ∧
    (p.run_producer_wrapper (some e)).2 = some e ∧
    (e.isStopIteration = false → (p.run_producer_wrapper (some e)).1 = p.stop) ∧
    (e.isStopIteration = true → (p.run_producer_wrapper (some e)).1 = p) ∧
    (p.run_producer_wrapper none = (p.stop, none)) := by
  refine ⟨?_, ?_, ?_, rfl, ?_, ?_, rfl⟩
  · intro hrun
    unfold Pipeline.stop
    rw [if_pos hrun]
    unfold Pipeline.kill_workers
    refine ⟨rfl, stop_running_false _, ?_, rfl, rfl, rfl⟩
    exact countPoison_put_poisons p.item_queue p.worker_tasks
  · intro hns
    unfold Pipeline.stop
    rw [if_neg hns]
  · intro hstop
    unfold Pipeline.shutdown_processing
    rw [if_pos hstop, if_pos hstop]
    exact ⟨rfl, rfl, hstop⟩
  · intro hsi
    unfold Pipeline.run_producer_wrapper
    simp [hsi]
  · intro hsi
    unfold Pipeline.run_producer_wrapper
    simp [hsi]

/-- Witness for C5 (amended): a running pipeline with two workers gains two
poison pills on `stop()`; shutdown of a stopping pipeline with one worker
waits for workers then the producer, ends `stopped` without an exception
and stays `stopping` when re-raising one. -/
theorem c5_stop_and_shutdown_witness :
    ((Pipeline.mk (α := Nat) ⟨[], 0, 0⟩ ⟨[], true⟩ PipelineState.running 2 2 true).stop).state = PipelineState.stopping ∧
    (((Pipeline.mk (α := Nat) ⟨[], 0, 0⟩ ⟨[], true⟩ PipelineState.running 2 2 true).stop).producer).running = false ∧
    countPoison ((Pipeline.mk (α := Nat) ⟨[], 0, 0⟩ ⟨[], true⟩ PipelineState.running 2 2 true).stop).item_queue.queue =
      countPoison (Pipeline.mk (α := Nat) ⟨[], 0, 0⟩ ⟨[], true⟩ PipelineState.running 2 2 true).item_queue.queue +
        (Pipeline.mk (α := Nat) ⟨[], 0, 0⟩ ⟨[], true⟩ PipelineState.running 2 2 true).worker_tasks ∧
    (Pipeline.mk (α := Nat) ⟨[], 0, 0⟩ ⟨[], false⟩ PipelineState.stopped 1 0 true).stop =
      Pipeline.mk (α := Nat) ⟨[], 0, 0⟩ ⟨[], false⟩ PipelineState.stopped 1 0 true ∧
    (Pipeline.mk (α := Nat) ⟨[], 0, 0⟩ ⟨[], false⟩ PipelineState.stopping 1 1 true).shutdown_processing none =
      some (Pipeline.mk (α := Nat) ⟨[], 0, 0⟩ ⟨[], false⟩ PipelineState.stopped 1 0 true, none,
        [ShutdownEvent.waitWorkers, ShutdownEvent.waitProducer]) ∧
    (Pipeline.mk (α := Nat) ⟨[], 0, 0⟩ ⟨[], false⟩ PipelineState.stopping 1 1 true).shutdown_processing (some ⟨false, 7⟩) =
      some (Pipeline.mk (α := Nat) ⟨[], 0, 0⟩ ⟨[], false⟩ PipelineState.stopping 1 0 true, some ⟨false, 7⟩,
        [ShutdownEvent.waitWorkers, ShutdownEvent.waitProducer]) ∧
    ((Pipeline.mk (α := Nat) ⟨[], 0, 0⟩ ⟨[], false⟩ PipelineState.stopping 1 1 true).run_producer_wrapper (some ⟨false, 7⟩)).2 =
      some ⟨false, 7⟩ :=
  ⟨((c5_stop_and_shutdown (Pipeline.mk (α := Nat) ⟨[], 0, 0⟩ ⟨[], true⟩ PipelineState.running 2 2 true) ⟨false, 7⟩).1 rfl).1,
    ((c5_stop_and_shutdown (Pipeline.mk (α := Nat) ⟨[], 0, 0⟩ ⟨[], true⟩ PipelineState.running 2 2 true) ⟨false, 7⟩).1 rfl).2.1,
    ((c5_stop_and_shutdown (Pipeline.mk (α := Nat) ⟨[], 0, 0⟩ ⟨[], true⟩ PipelineState.running 2 2 true) ⟨false, 7⟩).1 rfl).2.2.1,
    (c5_stop_and_shutdown (Pipeline.mk (α := Nat) ⟨[], 0, 0⟩ ⟨[], false⟩ PipelineState.stopped 1 0 true) ⟨false, 7⟩).2.1 (by decide),
    ((c5_stop_and_shutdown (Pipeline.mk (α := Nat) ⟨[], 0, 0⟩ ⟨[], false⟩ PipelineState.stopping 1 1 true) ⟨false, 7⟩).2.2.1 rfl).1,
    ((c5_stop_and_shutdown (Pipeline.mk (α := Nat) ⟨[], 0, 0⟩ ⟨[], false⟩ PipelineState.stopping 1 1 true) ⟨false, 7⟩).2.2.1 rfl).2.1,
    (c5_stop_and_shutdown (Pipeline.mk (α := Nat) ⟨[], 0, 0⟩ ⟨[], false⟩ PipelineState.stopping 1 1 true) ⟨false, 7⟩).2.2.2.1⟩
